import Mathlib

/-!
Verification development for the pyTheiaSfM geometric-estimation core:
the reconstruction data model, the `TrackEstimator` multi-view
triangulation driver (`src/theia/sfm/estimate_track.h`), the bundle
adjustment entry points exercised by
`src/theia/sfm/bundle_adjustment/bundle_adjustment_test.cc`, and the
sample-consensus estimation loop.

The repository ships only the `TrackEstimator` header (with its `Options`
defaults), the bundle-adjustment test, and binding/include files; the
implementations (`estimate_track.cc`, `bundle_adjustment.cc`,
`reconstruction.cc`, `sample_consensus_estimator.h`) are not part of the
source tree.  Definitions for those parts are therefore modelled from the
specification, as marked in their doc comments.  All arithmetic is exact
(ℚ) and every definition is executable.
-/

/-- 3D vector over ℚ. -/
structure Vec3 where
  x : ℚ
  y : ℚ
  z : ℚ
deriving DecidableEq

/-- Homogeneous 3D point (the `Track` stores a homogeneous point). -/
structure Pt4 where
  x : ℚ
  y : ℚ
  z : ℚ
  w : ℚ
deriving DecidableEq

/-- A 2D pixel measurement (`Feature`). -/
structure Feature where
  x : ℚ
  y : ℚ
deriving DecidableEq

abbrev ViewId := Nat

abbrev TrackId := Nat

/-- Modelled from the spec: `camera.h` is not in the source tree.  A pinhole
camera with extrinsics (position, orientation as a rotation matrix given by
rows) and intrinsics (focal length, principal point, image size), matching
the fields the test sets (`SetPosition`, `SetOrientationFromAngleAxis`,
`SetImageSize`, `SetFocalLength`, `SetPrincipalPoint`). -/
structure Camera where
  position : Vec3
  row0 : Vec3
  row1 : Vec3
  row2 : Vec3
  focalLength : ℚ
  ppx : ℚ
  ppy : ℚ
  imageWidth : Nat
  imageHeight : Nat
deriving DecidableEq

/-- Modelled from the spec: `view.h` is not in the source tree.  A view has
identity (held by the reconstruction map), name, timestamp, camera,
estimated flag and a set of observations (track id → feature). -/
structure View where
  name : String
  timestamp : ℚ
  camera : Camera
  estimated : Bool
  features : List (TrackId × Feature)
deriving DecidableEq

/-- Modelled from the spec: `track.h` is not in the source tree.  A track has
a homogeneous 3D point, an estimated flag, and the set of observing views. -/
structure Track where
  point : Option Pt4
  estimated : Bool
  viewIds : List ViewId
deriving DecidableEq

/-- Modelled from the spec: `reconstruction.h` is not in the source tree.
Mapping of view id → view and track id → track, with monotonically assigned
ids. -/
structure Reconstruction where
  views : List (ViewId × View)
  tracks : List (TrackId × Track)
  nextViewId : ViewId
  nextTrackId : TrackId
deriving DecidableEq

/-- Lookup in an association list keyed by natural numbers (first match). -/
def alookup {α : Type} : List (Nat × α) → Nat → Option α
  | [], _ => none
  | (k, v) :: tl, k' => if k = k' then some v else alookup tl k'

/-- Pointwise update of every entry with the given key. -/
def aupdate {α : Type} : List (Nat × α) → Nat → (α → α) → List (Nat × α)
  | [], _, _ => []
  | (k, v) :: tl, k', f =>
    if k = k' then (k, f v) :: aupdate tl k' f else (k, v) :: aupdate tl k' f

theorem alookup_aupdate {α : Type} (l : List (Nat × α)) (k : Nat) (f : α → α)
    (k' : Nat) :
    alookup (aupdate l k f) k' =
      if k' = k then (alookup l k).map f else alookup l k' := by
  induction l with
  | nil => simp [alookup, aupdate]
  | cons hd tl ih =>
    obtain ⟨hk, hv⟩ := hd
    by_cases h1 : hk = k
    · subst h1
      by_cases h2 : hk = k'
      · subst h2
        simp [alookup, aupdate]
      · have h2' : ¬ k' = hk := fun he => h2 he.symm
        simp [alookup, aupdate, h2, h2', ih]
    · by_cases h2 : hk = k'
      · subst h2
        simp [alookup, aupdate, h1]
      · simp [alookup, aupdate, h1, h2, ih]

theorem alookup_aupdate_self {α : Type} (l : List (Nat × α)) (k : Nat)
    (f : α → α) : alookup (aupdate l k f) k = (alookup l k).map f := by
  simp [alookup_aupdate]

theorem alookup_aupdate_ne {α : Type} (l : List (Nat × α)) (k : Nat)
    (f : α → α) (k' : Nat) (h : k' ≠ k) :
    alookup (aupdate l k f) k' = alookup l k' := by
  simp [alookup_aupdate, h]

theorem keys_aupdate {α : Type} (l : List (Nat × α)) (k : Nat) (f : α → α) :
    (aupdate l k f).map Prod.fst = l.map Prod.fst := by
  induction l with
  | nil => rfl
  | cons hd tl ih =>
    obtain ⟨hk, hv⟩ := hd
    by_cases h : hk = k <;> simp [aupdate, h, ih]

theorem alookup_isSome_of_mem_keys {α : Type} (l : List (Nat × α)) (k : Nat)
    (h : k ∈ l.map Prod.fst) : ∃ v, alookup l k = some v := by
  induction l with
  | nil => simp at h
  | cons hd tl ih =>
    obtain ⟨hk, hv⟩ := hd
    by_cases he : hk = k
    · exact ⟨hv, by simp [alookup, he]⟩
    · simp only [List.map_cons, List.mem_cons] at h
      rcases h with h | h
      · exact absurd h.symm he
      · obtain ⟨v, hv'⟩ := ih h
        exact ⟨v, by simp [alookup, he, hv']⟩

theorem mem_keys_of_alookup {α : Type} (l : List (Nat × α)) (k : Nat) (v : α)
    (h : alookup l k = some v) : k ∈ l.map Prod.fst := by
  induction l with
  | nil => simp [alookup] at h
  | cons hd tl ih =>
    obtain ⟨hk, hv⟩ := hd
    by_cases he : hk = k
    · simp [he]
    · simp [alookup, he] at h
      simp only [List.map_cons, List.mem_cons]
      exact Or.inr (ih h)

/-- One observation of a track from an estimated view: the observing view's
id, its camera and the measured feature (spec §3: Feature/Observation). -/
structure Obs where
  viewId : ViewId
  camera : Camera
  feature : Feature
deriving DecidableEq

/-- Observations of track `tid` collected from the given views, keeping only
estimated views holding a feature for the track (spec §4.2: "collect
observations from estimated views only"). -/
def obsOfViews (views : List (ViewId × View)) (tid : TrackId)
    (vids : List ViewId) : List Obs :=
  vids.filterMap (fun vid =>
    match alookup views vid with
    | none => none
    | some v =>
      if v.estimated then
        (alookup v.features tid).map (fun f => ⟨vid, v.camera, f⟩)
      else none)

/-- All estimated-view observations of track `tid` in the reconstruction. -/
def trackObservations (r : Reconstruction) (tid : TrackId) : List Obs :=
  match alookup r.tracks tid with
  | none => []
  | some t => obsOfViews r.views tid t.viewIds

/-- Total squared reprojection error of a candidate point over a set of
observations, for a given per-observation squared-error function. -/
def totalErrorSq (reprojSq : Obs → Pt4 → ℚ) (obs : List Obs) (p : Pt4) : ℚ :=
  (obs.map (fun o => reprojSq o p)).sum

/-- Modelled from the spec: the geometric primitives used by
`TrackEstimator` live in `estimate_track.cc`, `triangulation.cc` and the
camera models, none of which are in the source tree.  They are abstracted
as a parameter: `angleOk obs θ` decides whether the maximum pairwise
viewing-ray angle among the observing camera centers is at least `θ`
degrees; `triangulate` computes a candidate homogeneous point from all
observations (`none` models a degenerate triangulation failure);
`reprojSq o p` is the squared pixel reprojection error of `p` in
observation `o`; `ba obs p` is the single-track bundle adjustment of the
point (spec §4.3: bundle adjustment minimizes the total reprojection cost,
captured by `ba_cost_le`; squared errors are nonnegative, captured by
`reprojSq_nonneg`). -/
structure Geometry where
  angleOk : List Obs → ℚ → Bool
  triangulate : List Obs → Option Pt4
  reprojSq : Obs → Pt4 → ℚ
  ba : List Obs → Pt4 → Pt4
  reprojSq_nonneg : ∀ o p, 0 ≤ reprojSq o p
  ba_cost_le : ∀ obs p,
    totalErrorSq reprojSq obs (ba obs p) ≤ totalErrorSq reprojSq obs p

/-- Triangulation method selector (`estimate_track.h`, lines 49-53). -/
inductive TriangulationMethodType where
  | MIDPOINT
  | SVD
  | L2_MINIMIZATION
deriving DecidableEq

/-- Modelled from the spec: `bundle_adjustment.h` is not in the source tree.
Configuration of the bundle adjuster (spec §4.3: loss function/scale,
convergence tolerances, iteration cap, thread count); `verbose` appears in
the bundle-adjustment test.  Field defaults are placeholders. -/
structure BundleAdjustmentOptions where
  verbose : Bool := false
  num_threads : Nat := 1
  max_num_iterations : Nat := 500
deriving DecidableEq

/-- Options of the track estimator, with the default values of
`estimate_track.h` lines 63-87. -/
structure TrackEstimator.Options where
  num_threads : Nat := 1
  max_acceptable_reprojection_error_pixels : ℚ := 5
  min_triangulation_angle_degrees : ℚ := 3
  bundle_adjustment : Bool := true
  ba_options : BundleAdjustmentOptions := {}
  multithreaded_step_size : Nat := 100
  triangulation_method : TriangulationMethodType :=
    TriangulationMethodType.MIDPOINT
deriving DecidableEq

/-- A default-constructed `TrackEstimator::Options`. -/
def defaultTrackEstimatorOptions : TrackEstimator.Options := {}

/-- Summary of a track-estimation run (`estimate_track.h` lines 89-99),
together with the per-failure-type diagnostic counters that the class keeps
in the atomics `num_bad_angles_`, `num_failed_triangulations_` and
`num_bad_reprojections_` (lines 122-123). -/
structure TrackEstimator.Summary where
  input_num_estimated_tracks : Nat
  num_triangulation_attempts : Nat
  estimated_tracks : List TrackId
  num_bad_angles : Nat
  num_failed_triangulations : Nat
  num_bad_reprojections : Nat
deriving DecidableEq

/-- The ways a per-track estimation attempt can fail (spec §4.2 and §7:
too few observations is a silent skip; angle, triangulation and
reprojection failures feed the three diagnostic counters). -/
inductive TrackFailure where
  | tooFewObservations
  | badAngle
  | failedTriangulation
  | badReprojection
deriving DecidableEq

/-- Squared reprojection threshold corresponding to
`max_acceptable_reprojection_error_pixels` (errors are compared squared). -/
def maxReprojSq (opt : TrackEstimator.Options) : ℚ :=
  opt.max_acceptable_reprojection_error_pixels *
    opt.max_acceptable_reprojection_error_pixels

/-- Modelled from the spec (§4.2, `estimate_track.cc` is not in the source
tree): the per-track pipeline on already-collected observations.  Require
at least 2 observations; reject with `badAngle` if the maximum pairwise
viewing-ray angle is below `min_triangulation_angle_degrees`; triangulate
with all observations; reject with `badReprojection` if any observation's
residual exceeds the maximum; on acceptance, if configured, immediately
bundle-adjust the single track.  Returns the point to be stored. -/
def triangulateTrack (geo : Geometry) (opt : TrackEstimator.Options)
    (obs : List Obs) : Except TrackFailure Pt4 :=
  if obs.length < 2 then .error .tooFewObservations
  else if !(geo.angleOk obs opt.min_triangulation_angle_degrees) then
    .error .badAngle
  else
    match geo.triangulate obs with
    | none => .error .failedTriangulation
    | some p =>
      if obs.any (fun o => decide (maxReprojSq opt < geo.reprojSq o p)) then
        .error .badReprojection
      else .ok (if opt.bundle_adjustment then geo.ba obs p else p)

/-- Modelled from the spec: one `TrackEstimator::EstimateTrack` call.  On
success the track's point is stored and its estimated flag set; on failure
the reconstruction is unchanged and the failure kind is reported. -/
def estimateTrack (geo : Geometry) (opt : TrackEstimator.Options)
    (r : Reconstruction) (tid : TrackId) :
    Reconstruction × Option TrackFailure :=
  match triangulateTrack geo opt (trackObservations r tid) with
  | .error f => (r, some f)
  | .ok p =>
    ({ r with
        tracks := aupdate r.tracks tid
          (fun t => { t with point := some p, estimated := true }) }, none)

/-- Add a per-track failure to the summary's diagnostic counters. -/
def bumpCounter (s : TrackEstimator.Summary) :
    TrackFailure → TrackEstimator.Summary
  | .tooFewObservations => s
  | .badAngle => { s with num_bad_angles := s.num_bad_angles + 1 }
  | .failedTriangulation =>
    { s with num_failed_triangulations := s.num_failed_triangulations + 1 }
  | .badReprojection =>
    { s with num_bad_reprojections := s.num_bad_reprojections + 1 }

/-- Process one track of the work list: run `estimateTrack` and fold its
outcome into the running summary (newly estimated ids on success, a
diagnostic counter on failure). -/
def teStep (geo : Geometry) (opt : TrackEstimator.Options)
    (st : Reconstruction × TrackEstimator.Summary) (tid : TrackId) :
    Reconstruction × TrackEstimator.Summary :=
  match estimateTrack geo opt st.1 tid with
  | (r', none) =>
    (r', { st.2 with estimated_tracks := st.2.estimated_tracks ++ [tid] })
  | (r', some f) => (r', bumpCounter st.2 f)

/-- Whether the reconstruction holds an estimated track with this id. -/
def isEstimatedTrack (r : Reconstruction) (tid : TrackId) : Bool :=
  match alookup r.tracks tid with
  | some t => t.estimated
  | none => false

/-- Whether the reconstruction holds an unestimated track with this id. -/
def existsUnestimated (r : Reconstruction) (tid : TrackId) : Bool :=
  match alookup r.tracks tid with
  | some t => !t.estimated
  | none => false

/-- Initial summary of an estimation run over the given candidate ids:
counts the input ids that were already estimated, and one triangulation
attempt per unestimated input track. -/
def teInit (r : Reconstruction) (ids : List TrackId) :
    TrackEstimator.Summary :=
  { input_num_estimated_tracks := (ids.filter (isEstimatedTrack r)).length
    num_triangulation_attempts := (ids.filter (existsUnestimated r)).length
    estimated_tracks := []
    num_bad_angles := 0
    num_failed_triangulations := 0
    num_bad_reprojections := 0 }

/-- Modelled from the spec: `TrackEstimator::EstimateTracks` — attempt to
estimate the (existing, unestimated) tracks among the supplied ids.  The
multithreaded chunking of the implementation distributes disjoint chunks
over workers and aggregates under a mutex; its observable result is the
sequential fold below. -/
def estimateTracks (geo : Geometry) (opt : TrackEstimator.Options)
    (r : Reconstruction) (ids : List TrackId) :
    Reconstruction × TrackEstimator.Summary :=
  (ids.filter (existsUnestimated r)).foldl (teStep geo opt) (r, teInit r ids)

/-- Modelled from the spec: `TrackEstimator::EstimateAllTracks` — attempt
to estimate every unestimated track of the reconstruction
(`estimate_track.h` lines 104-105). -/
def estimateAllTracks (geo : Geometry) (opt : TrackEstimator.Options)
    (r : Reconstruction) : Reconstruction × TrackEstimator.Summary :=
  estimateTracks geo opt r (r.tracks.map Prod.fst)

theorem estimateTrack_err (geo : Geometry) (opt : TrackEstimator.Options)
    (r : Reconstruction) (tid : TrackId) (f : TrackFailure)
    (h : triangulateTrack geo opt (trackObservations r tid) = .error f) :
    estimateTrack geo opt r tid = (r, some f) := by
  simp [estimateTrack, h]

theorem estimateTrack_ok (geo : Geometry) (opt : TrackEstimator.Options)
    (r : Reconstruction) (tid : TrackId) (p : Pt4)
    (h : triangulateTrack geo opt (trackObservations r tid) = .ok p) :
    estimateTrack geo opt r tid =
      ({ r with
          tracks := aupdate r.tracks tid
            (fun t => { t with point := some p, estimated := true }) },
        none) := by
  simp [estimateTrack, h]

theorem estimateTrack_fst_views (geo : Geometry)
    (opt : TrackEstimator.Options) (r : Reconstruction) (tid : TrackId) :
    (estimateTrack geo opt r tid).1.views = r.views := by
  cases h : triangulateTrack geo opt (trackObservations r tid) with
  | error f => rw [estimateTrack_err geo opt r tid f h]
  | ok p => rw [estimateTrack_ok geo opt r tid p h]

theorem estimateTrack_fst_trackKeys (geo : Geometry)
    (opt : TrackEstimator.Options) (r : Reconstruction) (tid : TrackId) :
    (estimateTrack geo opt r tid).1.tracks.map Prod.fst =
      r.tracks.map Prod.fst := by
  cases h : triangulateTrack geo opt (trackObservations r tid) with
  | error f => rw [estimateTrack_err geo opt r tid f h]
  | ok p => rw [estimateTrack_ok geo opt r tid p h]; exact keys_aupdate _ _ _

theorem estimateTrack_fst_nextIds (geo : Geometry)
    (opt : TrackEstimator.Options) (r : Reconstruction) (tid : TrackId) :
    (estimateTrack geo opt r tid).1.nextViewId = r.nextViewId ∧
      (estimateTrack geo opt r tid).1.nextTrackId = r.nextTrackId := by
  cases h : triangulateTrack geo opt (trackObservations r tid) with
  | error f => rw [estimateTrack_err geo opt r tid f h]; exact ⟨rfl, rfl⟩
  | ok p => rw [estimateTrack_ok geo opt r tid p h]; exact ⟨rfl, rfl⟩

theorem trackObservations_aupdate (r : Reconstruction) (tid : TrackId)
    (g : Track → Track) (hg : ∀ t, (g t).viewIds = t.viewIds)
    (t' : TrackId) :
    trackObservations { r with tracks := aupdate r.tracks tid g } t' =
      trackObservations r t' := by
  unfold trackObservations
  show (match alookup (aupdate r.tracks tid g) t' with
    | none => []
    | some t => obsOfViews r.views t' t.viewIds) = _
  rw [alookup_aupdate]
  by_cases h : t' = tid
  · subst h
    simp only [if_pos rfl]
    cases alookup r.tracks t' with
    | none => rfl
    | some t => simp [hg]
  · simp only [if_neg h]

theorem estimateTrack_obs_inv (geo : Geometry) (opt : TrackEstimator.Options)
    (r : Reconstruction) (tid : TrackId) (t' : TrackId) :
    trackObservations (estimateTrack geo opt r tid).1 t' =
      trackObservations r t' := by
  cases h : triangulateTrack geo opt (trackObservations r tid) with
  | error f => rw [estimateTrack_err geo opt r tid f h]
  | ok p =>
    rw [estimateTrack_ok geo opt r tid p h]
    exact trackObservations_aupdate r tid
      (fun t => { t with point := some p, estimated := true })
      (fun t => rfl) t'

theorem estimateTrack_lookup_ne (geo : Geometry)
    (opt : TrackEstimator.Options) (r : Reconstruction) (tid : TrackId)
    (t' : TrackId) (h : t' ≠ tid) :
    alookup (estimateTrack geo opt r tid).1.tracks t' =
      alookup r.tracks t' := by
  cases he : triangulateTrack geo opt (trackObservations r tid) with
  | error f => rw [estimateTrack_err geo opt r tid f he]
  | ok p =>
    rw [estimateTrack_ok geo opt r tid p he]
    exact alookup_aupdate_ne _ _ _ _ h

theorem teStep_fst (geo : Geometry) (opt : TrackEstimator.Options)
    (st : Reconstruction × TrackEstimator.Summary) (tid : TrackId) :
    (teStep geo opt st tid).1 = (estimateTrack geo opt st.1 tid).1 := by
  unfold teStep
  rcases h : estimateTrack geo opt st.1 tid with ⟨r', res⟩
  cases res <;> simp

theorem teStep_est_tracks (geo : Geometry) (opt : TrackEstimator.Options)
    (st : Reconstruction × TrackEstimator.Summary) (tid : TrackId)
    (f : TrackFailure)
    (h : triangulateTrack geo opt (trackObservations st.1 tid) = .error f) :
    teStep geo opt st tid = (st.1, bumpCounter st.2 f) := by
  unfold teStep
  rw [estimateTrack_err geo opt st.1 tid f h]

theorem bumpCounter_est (s : TrackEstimator.Summary) (f : TrackFailure) :
    (bumpCounter s f).estimated_tracks = s.estimated_tracks := by
  cases f <;> rfl

theorem fold_obs_inv (geo : Geometry) (opt : TrackEstimator.Options)
    (l : List TrackId) (st : Reconstruction × TrackEstimator.Summary)
    (t' : TrackId) :
    trackObservations (l.foldl (teStep geo opt) st).1 t' =
      trackObservations st.1 t' := by
  induction l generalizing st with
  | nil => rfl
  | cons a l ih =>
    rw [List.foldl_cons, ih]
    rw [teStep_fst]
    exact estimateTrack_obs_inv geo opt st.1 a t'

theorem fold_views_inv (geo : Geometry) (opt : TrackEstimator.Options)
    (l : List TrackId) (st : Reconstruction × TrackEstimator.Summary) :
    (l.foldl (teStep geo opt) st).1.views = st.1.views := by
  induction l generalizing st with
  | nil => rfl
  | cons a l ih =>
    rw [List.foldl_cons, ih, teStep_fst]
    exact estimateTrack_fst_views geo opt st.1 a

theorem fold_trackKeys_inv (geo : Geometry) (opt : TrackEstimator.Options)
    (l : List TrackId) (st : Reconstruction × TrackEstimator.Summary) :
    (l.foldl (teStep geo opt) st).1.tracks.map Prod.fst =
      st.1.tracks.map Prod.fst := by
  induction l generalizing st with
  | nil => rfl
  | cons a l ih =>
    rw [List.foldl_cons, ih, teStep_fst]
    exact estimateTrack_fst_trackKeys geo opt st.1 a

theorem fold_nextIds_inv (geo : Geometry) (opt : TrackEstimator.Options)
    (l : List TrackId) (st : Reconstruction × TrackEstimator.Summary) :
    (l.foldl (teStep geo opt) st).1.nextViewId = st.1.nextViewId ∧
      (l.foldl (teStep geo opt) st).1.nextTrackId = st.1.nextTrackId := by
  induction l generalizing st with
  | nil => exact ⟨rfl, rfl⟩
  | cons a l ih =>
    rw [List.foldl_cons]
    refine ⟨?_, ?_⟩
    · rw [(ih _).1, teStep_fst]
      exact (estimateTrack_fst_nextIds geo opt st.1 a).1
    · rw [(ih _).2, teStep_fst]
      exact (estimateTrack_fst_nextIds geo opt st.1 a).2

theorem fold_lookup_notmem (geo : Geometry) (opt : TrackEstimator.Options)
    (l : List TrackId) (st : Reconstruction × TrackEstimator.Summary)
    (tid : TrackId) (h : tid ∉ l) :
    alookup (l.foldl (teStep geo opt) st).1.tracks tid =
      alookup st.1.tracks tid := by
  induction l generalizing st with
  | nil => rfl
  | cons a l ih =>
    rw [List.foldl_cons, ih _ (fun hm => h (List.mem_cons_of_mem a hm))]
    rw [teStep_fst]
    exact estimateTrack_lookup_ne geo opt st.1 a tid
      (fun he => h (he ▸ List.mem_cons_self a l))

theorem fold_lookup_ok (geo : Geometry) (opt : TrackEstimator.Options)
    (l : List TrackId) (st : Reconstruction × TrackEstimator.Summary)
    (tid : TrackId) (p : Pt4) (hnd : l.Nodup) (hmem : tid ∈ l)
    (hok : triangulateTrack geo opt (trackObservations st.1 tid) = .ok p) :
    alookup (l.foldl (teStep geo opt) st).1.tracks tid =
      (alookup st.1.tracks tid).map
        (fun t => { t with point := some p, estimated := true }) := by
  induction l generalizing st with
  | nil => simp at hmem
  | cons a l ih =>
    rw [List.foldl_cons]
    by_cases ha : a = tid
    · subst ha
      have hnotin : a ∉ l := (List.nodup_cons.mp hnd).1
      rw [fold_lookup_notmem geo opt l _ a hnotin]
      unfold teStep
      rw [estimateTrack_ok geo opt st.1 a p hok]
      exact alookup_aupdate_self _ _ _
    · have hmem' : tid ∈ l := by
        rcases List.mem_cons.mp hmem with h | h
        · exact absurd h.symm ha
        · exact h
      have hobs : trackObservations (teStep geo opt st a).1 tid =
          trackObservations st.1 tid := by
        rw [teStep_fst]
        exact estimateTrack_obs_inv geo opt st.1 a tid
      have := ih (teStep geo opt st a) (List.nodup_cons.mp hnd).2 hmem'
        (by rw [hobs]; exact hok)
      rw [this, teStep_fst,
        estimateTrack_lookup_ne geo opt st.1 a tid (Ne.symm ha)]

theorem fold_all_fail (geo : Geometry) (opt : TrackEstimator.Options)
    (l : List TrackId) (st : Reconstruction × TrackEstimator.Summary)
    (h : ∀ tid ∈ l, ∃ f,
      triangulateTrack geo opt (trackObservations st.1 tid) = .error f) :
    (l.foldl (teStep geo opt) st).1 = st.1 ∧
      (l.foldl (teStep geo opt) st).2.estimated_tracks =
        st.2.estimated_tracks := by
  induction l generalizing st with
  | nil => exact ⟨rfl, rfl⟩
  | cons a l ih =>
    obtain ⟨f, hf⟩ := h a (List.mem_cons_self a l)
    rw [List.foldl_cons, teStep_est_tracks geo opt st a f hf]
    have ih' := ih (st.1, bumpCounter st.2 f)
      (fun tid hm => h tid (List.mem_cons_of_mem a hm))
    exact ⟨ih'.1, by rw [ih'.2, bumpCounter_est]⟩

theorem estimateTrack_est_mono (geo : Geometry)
    (opt : TrackEstimator.Options) (r : Reconstruction) (a tid : TrackId)
    (h : isEstimatedTrack r tid = true) :
    isEstimatedTrack (estimateTrack geo opt r a).1 tid = true := by
  cases he : triangulateTrack geo opt (trackObservations r a) with
  | error f => rw [estimateTrack_err geo opt r a f he]; exact h
  | ok p =>
    rw [estimateTrack_ok geo opt r a p he]
    unfold isEstimatedTrack at h ⊢
    show (match alookup (aupdate r.tracks a _) tid with
      | some t => t.estimated
      | none => false) = true
    rw [alookup_aupdate]
    by_cases ht : tid = a
    · subst ht
      simp only [if_pos rfl]
      cases hl : alookup r.tracks tid with
      | none => rw [hl] at h; exact absurd h (by simp)
      | some t => simp
    · simp only [if_neg ht]
      exact h

theorem fold_est_mono (geo : Geometry) (opt : TrackEstimator.Options)
    (l : List TrackId) (st : Reconstruction × TrackEstimator.Summary)
    (tid : TrackId) (h : isEstimatedTrack st.1 tid = true) :
    isEstimatedTrack (l.foldl (teStep geo opt) st).1 tid = true := by
  induction l generalizing st with
  | nil => exact h
  | cons a l ih =>
    rw [List.foldl_cons]
    refine ih _ ?_
    rw [teStep_fst]
    exact estimateTrack_est_mono geo opt st.1 a tid h

theorem existsUnestimated_eq (r : Reconstruction) (tid : TrackId) (t : Track)
    (h : alookup r.tracks tid = some t) :
    existsUnestimated r tid = !t.estimated := by
  simp [existsUnestimated, h]

theorem isEstimatedTrack_eq (r : Reconstruction) (tid : TrackId) (t : Track)
    (h : alookup r.tracks tid = some t) :
    isEstimatedTrack r tid = t.estimated := by
  simp [isEstimatedTrack, h]

/-- C2: a second `EstimateAllTracks` call immediately after a first one
estimates zero additional tracks (its `estimated_tracks` set is empty) and
leaves the whole reconstruction — in particular every already-estimated
track — unchanged.  Requires the reconstruction's track ids to be unique
(the data-model invariant). -/
theorem estimateAllTracks_idempotent (geo : Geometry)
    (opt : TrackEstimator.Options) (r : Reconstruction)
    (h : (r.tracks.map Prod.fst).Nodup) :
    (estimateAllTracks geo opt (estimateAllTracks geo opt r).1).1 =
        (estimateAllTracks geo opt r).1 ∧
      (estimateAllTracks geo opt
          (estimateAllTracks geo opt r).1).2.estimated_tracks = [] := by
  have hfail : ∀ tid ∈ ((estimateAllTracks geo opt r).1.tracks.map
      Prod.fst).filter (existsUnestimated (estimateAllTracks geo opt r).1),
      ∃ f, triangulateTrack geo opt
        (trackObservations (estimateAllTracks geo opt r).1 tid) =
          .error f := by
    intro tid htid
    rw [List.mem_filter] at htid
    obtain ⟨hmem1, hunest1⟩ := htid
    have hkeys : (estimateAllTracks geo opt r).1.tracks.map Prod.fst =
        r.tracks.map Prod.fst := by
      unfold estimateAllTracks estimateTracks
      exact fold_trackKeys_inv geo opt _ _
    rw [hkeys] at hmem1
    obtain ⟨t0, ht0⟩ := alookup_isSome_of_mem_keys r.tracks tid hmem1
    obtain ⟨t1, ht1⟩ := alookup_isSome_of_mem_keys
      (estimateAllTracks geo opt r).1.tracks tid
      (by rw [hkeys]; exact hmem1)
    rw [existsUnestimated_eq _ tid t1 ht1] at hunest1
    have ht1e : t1.estimated = false := by
      cases he : t1.estimated
      · rfl
      · rw [he] at hunest1; simp at hunest1
    have ht0e : t0.estimated = false := by
      cases he : t0.estimated
      · rfl
      · exfalso
        have hm : isEstimatedTrack r tid = true := by
          rw [isEstimatedTrack_eq r tid t0 ht0, he]
        have := fold_est_mono geo opt
          ((r.tracks.map Prod.fst).filter (existsUnestimated r))
          (r, teInit r (r.tracks.map Prod.fst)) tid hm
        unfold estimateAllTracks estimateTracks at ht1
        rw [isEstimatedTrack_eq _ tid t1 ht1] at this
        rw [ht1e] at this
        simp at this
    have hmemToEst : tid ∈ (r.tracks.map Prod.fst).filter
        (existsUnestimated r) := by
      rw [List.mem_filter]
      exact ⟨hmem1, by rw [existsUnestimated_eq r tid t0 ht0, ht0e]; rfl⟩
    have hobs : trackObservations (estimateAllTracks geo opt r).1 tid =
        trackObservations r tid := by
      unfold estimateAllTracks estimateTracks
      exact fold_obs_inv geo opt _ _ tid
    cases he : triangulateTrack geo opt (trackObservations r tid) with
    | error f => exact ⟨f, by rw [hobs]; exact he⟩
    | ok p =>
      exfalso
      have := fold_lookup_ok geo opt
        ((r.tracks.map Prod.fst).filter (existsUnestimated r))
        (r, teInit r (r.tracks.map Prod.fst)) tid p
        (h.filter _) hmemToEst he
      unfold estimateAllTracks estimateTracks at ht1
      rw [ht1, ht0] at this
      have ht1t : t1.estimated = true := by
        have h2 := congrArg (fun o => Option.map Track.estimated o) this
        simp at h2
        exact h2
      rw [ht1e] at ht1t
      simp at ht1t
  constructor
  · show (estimateTracks geo opt _ _).1 = _
    unfold estimateTracks
    exact (fold_all_fail geo opt _
      ((estimateAllTracks geo opt r).1,
        teInit (estimateAllTracks geo opt r).1
          ((estimateAllTracks geo opt r).1.tracks.map Prod.fst)) hfail).1
  · show (estimateTracks geo opt _ _).2.estimated_tracks = _
    unfold estimateTracks
    exact (fold_all_fail geo opt _
      ((estimateAllTracks geo opt r).1,
        teInit (estimateAllTracks geo opt r).1
          ((estimateAllTracks geo opt r).1.tracks.map Prod.fst)) hfail).2

/-- Trivial concrete geometry: the angle test always fails, triangulation
always fails, errors are zero and bundle adjustment is the identity.  Used
to instantiate theorems at concrete inputs. -/
def trivialGeometry : Geometry where
  angleOk := fun _ _ => false
  triangulate := fun _ => none
  reprojSq := fun _ _ => 0
  ba := fun _ p => p
  reprojSq_nonneg := fun _ _ => le_refl 0
  ba_cost_le := fun _ _ => le_refl _

/-- Identity camera at the origin with the focal length and principal point
of the test's `RandomCamera` (focal length 500, principal point (500,500),
image size 1000x1000). -/
def testCamera : Camera where
  position := ⟨0, 0, 0⟩
  row0 := ⟨1, 0, 0⟩
  row1 := ⟨0, 1, 0⟩
  row2 := ⟨0, 0, 1⟩
  focalLength := 500
  ppx := 500
  ppy := 500
  imageWidth := 1000
  imageHeight := 1000

/-- A small reconstruction: two estimated views (ids 1 and 2) both
observing track 0 at the pixel (0,0); track 0 is unestimated. -/
def twoViewRecon : Reconstruction where
  views :=
    [(1, { name := "1", timestamp := 0, camera := testCamera,
           estimated := true, features := [(0, ⟨0, 0⟩)] }),
     (2, { name := "2", timestamp := 0, camera := testCamera,
           estimated := true, features := [(0, ⟨0, 0⟩)] })]
  tracks := [(0, { point := none, estimated := false, viewIds := [1, 2] })]
  nextViewId := 3
  nextTrackId := 1

/-- C2 witness: the idempotence theorem applied to a concrete
reconstruction. -/
theorem estimateAllTracks_idempotent_witness :
    (twoViewRecon.tracks.map Prod.fst).Nodup ∧
      ((estimateAllTracks trivialGeometry defaultTrackEstimatorOptions
          (estimateAllTracks trivialGeometry defaultTrackEstimatorOptions
            twoViewRecon).1).1 =
        (estimateAllTracks trivialGeometry defaultTrackEstimatorOptions
          twoViewRecon).1 ∧
      (estimateAllTracks trivialGeometry defaultTrackEstimatorOptions
          (estimateAllTracks trivialGeometry defaultTrackEstimatorOptions
            twoViewRecon).1).2.estimated_tracks = []) :=
  ⟨by decide,
    estimateAllTracks_idempotent trivialGeometry
      defaultTrackEstimatorOptions twoViewRecon (by decide)⟩

/-- C6: when a track has at least 2 estimated-view observations but the
pairwise viewing-ray angle test fails, the estimation attempt leaves the
reconstruction (in particular the track) completely unchanged, increments
the angle-failure counter by exactly 1, and increments no other counter. -/
theorem trackEstimator_badAngle_counter (geo : Geometry)
    (opt : TrackEstimator.Options) (r : Reconstruction) (tid : TrackId)
    (t : Track) (hk : alookup r.tracks tid = some t)
    (he : t.estimated = false)
    (hlen : 2 ≤ (trackObservations r tid).length)
    (hang : geo.angleOk (trackObservations r tid)
      opt.min_triangulation_angle_degrees = false) :
    estimateTracks geo opt r [tid] =
      (r, { input_num_estimated_tracks := 0
            num_triangulation_attempts := 1
            estimated_tracks := []
            num_bad_angles := 1
            num_failed_triangulations := 0
            num_bad_reprojections := 0 }) := by
  have hnl : ¬ (trackObservations r tid).length < 2 := Nat.not_lt.mpr hlen
  have htri : triangulateTrack geo opt (trackObservations r tid) =
      .error .badAngle := by
    simp [triangulateTrack, hnl, hang]
  have hun : existsUnestimated r tid = true := by
    rw [existsUnestimated_eq r tid t hk, he]
    rfl
  have hes : isEstimatedTrack r tid = false := by
    rw [isEstimatedTrack_eq r tid t hk, he]
  unfold estimateTracks teInit
  rw [show [tid].filter (existsUnestimated r) = [tid] by simp [hun],
    show [tid].filter (isEstimatedTrack r) = ([] : List TrackId) by
      simp [hes]]
  rw [List.foldl_cons, List.foldl_nil]
  rw [teStep_est_tracks geo opt _ tid TrackFailure.badAngle htri]
  rfl

/-- C6 witness: the angle-failure theorem applied to a concrete two-view
reconstruction whose geometry always fails the angle test. -/
theorem trackEstimator_badAngle_counter_witness :
    alookup twoViewRecon.tracks 0 =
        some { point := none, estimated := false, viewIds := [1, 2] } ∧
      ({ point := none, estimated := false,
          viewIds := [1, 2] } : Track).estimated = false ∧
      2 ≤ (trackObservations twoViewRecon 0).length ∧
      trivialGeometry.angleOk (trackObservations twoViewRecon 0)
        defaultTrackEstimatorOptions.min_triangulation_angle_degrees =
          false ∧
      estimateTracks trivialGeometry defaultTrackEstimatorOptions
          twoViewRecon [0] =
        (twoViewRecon,
          { input_num_estimated_tracks := 0
            num_triangulation_attempts := 1
            estimated_tracks := []
            num_bad_angles := 1
            num_failed_triangulations := 0
            num_bad_reprojections := 0 }) :=
  ⟨by decide, by decide, by decide, by decide,
    trackEstimator_badAngle_counter trivialGeometry
      defaultTrackEstimatorOptions twoViewRecon 0
      { point := none, estimated := false, viewIds := [1, 2] }
      (by decide) (by decide) (by decide) (by decide)⟩

/-- A reconstruction with a single estimated view (id 1) observing the
unestimated track 0, so the track has exactly one observation. -/
def oneViewRecon : Reconstruction where
  views :=
    [(1, { name := "1", timestamp := 0, camera := testCamera,
           estimated := true, features := [(0, ⟨0, 0⟩)] })]
  tracks := [(0, { point := none, estimated := false, viewIds := [1] })]
  nextViewId := 2
  nextTrackId := 1

/-- C7: when a track has fewer than 2 estimated-view observations the
estimation attempt changes nothing and increments none of the three
failure counters; moreover the outcome is identical for every geometry,
so no triangulation (nor any other geometric computation) is attempted. -/
theorem trackEstimator_skips_underobserved (geo geo' : Geometry)
    (opt : TrackEstimator.Options) (r : Reconstruction) (tid : TrackId)
    (t : Track) (hk : alookup r.tracks tid = some t)
    (he : t.estimated = false)
    (hlen : (trackObservations r tid).length < 2) :
    estimateTracks geo opt r [tid] =
        (r, { input_num_estimated_tracks := 0
              num_triangulation_attempts := 1
              estimated_tracks := []
              num_bad_angles := 0
              num_failed_triangulations := 0
              num_bad_reprojections := 0 }) ∧
      estimateTracks geo opt r [tid] = estimateTracks geo' opt r [tid] := by
  have key : ∀ g : Geometry, estimateTracks g opt r [tid] =
      (r, { input_num_estimated_tracks := 0
            num_triangulation_attempts := 1
            estimated_tracks := []
            num_bad_angles := 0
            num_failed_triangulations := 0
            num_bad_reprojections := 0 }) := by
    intro g
    have htri : triangulateTrack g opt (trackObservations r tid) =
        .error .tooFewObservations := by
      simp [triangulateTrack, hlen]
    have hun : existsUnestimated r tid = true := by
      rw [existsUnestimated_eq r tid t hk, he]
      rfl
    have hes : isEstimatedTrack r tid = false := by
      rw [isEstimatedTrack_eq r tid t hk, he]
    unfold estimateTracks teInit
    rw [show [tid].filter (existsUnestimated r) = [tid] by simp [hun],
      show [tid].filter (isEstimatedTrack r) = ([] : List TrackId) by
        simp [hes]]
    rw [List.foldl_cons, List.foldl_nil]
    rw [teStep_est_tracks g opt _ tid TrackFailure.tooFewObservations htri]
    rfl
  exact ⟨key geo, (key geo).trans (key geo').symm⟩

/-- C7 witness: the under-observation theorem applied to a concrete
one-view reconstruction, compared across two different geometries. -/
theorem trackEstimator_skips_underobserved_witness :
    alookup oneViewRecon.tracks 0 =
        some { point := none, estimated := false, viewIds := [1] } ∧
      ({ point := none, estimated := false,
          viewIds := [1] } : Track).estimated = false ∧
      (trackObservations oneViewRecon 0).length < 2 ∧
      (estimateTracks trivialGeometry defaultTrackEstimatorOptions
          oneViewRecon [0] =
        (oneViewRecon,
          { input_num_estimated_tracks := 0
            num_triangulation_attempts := 1
            estimated_tracks := []
            num_bad_angles := 0
            num_failed_triangulations := 0
            num_bad_reprojections := 0 }) ∧
      estimateTracks trivialGeometry defaultTrackEstimatorOptions
          oneViewRecon [0] =
        estimateTracks trivialGeometry defaultTrackEstimatorOptions
          oneViewRecon [0]) :=
  ⟨by decide, by decide, by decide,
    trackEstimator_skips_underobserved trivialGeometry trivialGeometry
      defaultTrackEstimatorOptions oneViewRecon 0
      { point := none, estimated := false, viewIds := [1] }
      (by decide) (by decide) (by decide)⟩

/-- C1 (amended): for a track with at least 2 estimated-view observations
passing the angle test, whose triangulated point reprojects into every
observing view within the configured maximum, `EstimateAllTracks` (and
`EstimateTracks` on any id list containing the track) sets the track's
estimated flag to true; when per-track bundle adjustment is disabled the
stored point is exactly the acceptance-checked triangulated point, so every
observing view's reprojection error of the stored point is at most the
configured maximum.  (With bundle adjustment enabled — the default — the
stored point is the bundle-adjusted one, which may exceed the per-view
bound; see the counterexample.) -/
theorem trackEstimator_accepts_well_conditioned_track (geo : Geometry)
    (opt : TrackEstimator.Options) (r : Reconstruction) (tid : TrackId)
    (t : Track) (p : Pt4)
    (hnd : (r.tracks.map Prod.fst).Nodup)
    (hk : alookup r.tracks tid = some t) (he : t.estimated = false)
    (hlen : 2 ≤ (trackObservations r tid).length)
    (hang : geo.angleOk (trackObservations r tid)
      opt.min_triangulation_angle_degrees = true)
    (htri : geo.triangulate (trackObservations r tid) = some p)
    (hrep : ∀ o ∈ trackObservations r tid,
      geo.reprojSq o p ≤ maxReprojSq opt) :
    ((alookup (estimateAllTracks geo opt r).1.tracks tid).map
        Track.estimated = some true) ∧
      (∀ ids : List TrackId, ids.Nodup → tid ∈ ids →
        (alookup (estimateTracks geo opt r ids).1.tracks tid).map
          Track.estimated = some true) ∧
      (opt.bundle_adjustment = false →
        (alookup (estimateAllTracks geo opt r).1.tracks tid).bind
            Track.point = some p ∧
          ∀ o ∈ trackObservations r tid,
            geo.reprojSq o p ≤ maxReprojSq opt) := by
  have hnl : ¬ (trackObservations r tid).length < 2 := Nat.not_lt.mpr hlen
  have hany : (trackObservations r tid).any
      (fun o => decide (maxReprojSq opt < geo.reprojSq o p)) = false := by
    simp only [List.any_eq_false, decide_eq_false_iff_not]
    intro o ho
    simpa using not_lt.mpr (hrep o ho)
  have hok : triangulateTrack geo opt (trackObservations r tid) =
      .ok (if opt.bundle_adjustment then
        geo.ba (trackObservations r tid) p else p) := by
    simp [triangulateTrack, hnl, hang, htri, hany]
  have hun : existsUnestimated r tid = true := by
    rw [existsUnestimated_eq r tid t hk, he]
    rfl
  have general : ∀ ids : List TrackId, ids.Nodup → tid ∈ ids →
      alookup (estimateTracks geo opt r ids).1.tracks tid =
        some { t with
          point := some (if opt.bundle_adjustment then
            geo.ba (trackObservations r tid) p else p)
          estimated := true } := by
    intro ids hids hmem
    have hmem' : tid ∈ ids.filter (existsUnestimated r) :=
      List.mem_filter.mpr ⟨hmem, hun⟩
    unfold estimateTracks
    rw [fold_lookup_ok geo opt (ids.filter (existsUnestimated r))
      (r, teInit r ids) tid _ (hids.filter _) hmem' hok]
    rw [hk]
    rfl
  refine ⟨?_, fun ids hn hm => by rw [general ids hn hm]; rfl, ?_⟩
  · unfold estimateAllTracks
    rw [general (r.tracks.map Prod.fst) hnd
      (mem_keys_of_alookup r.tracks tid t hk)]
    rfl
  · intro hba
    refine ⟨?_, hrep⟩
    unfold estimateAllTracks
    rw [general (r.tracks.map Prod.fst) hnd
      (mem_keys_of_alookup r.tracks tid t hk)]
    simp [hba]

/-- The point the counterexample geometry triangulates. -/
def ptA : Pt4 := ⟨0, 0, 0, 1⟩

/-- The point the counterexample geometry's bundle adjustment moves to. -/
def ptB : Pt4 := ⟨1, 0, 0, 1⟩

/-- Squared reprojection errors of the counterexample geometry: the
triangulated point `ptA` has error 25 (= the default squared threshold) in
both views; the bundle-adjusted point `ptB` has error 36 in view 1 and 0
elsewhere, so moving from `ptA` to `ptB` lowers the total cost
(50 → 36) while pushing view 1 above the threshold. -/
def cexReprojSq (o : Obs) (p : Pt4) : ℚ :=
  if p = ptB then (if o.viewId = 1 then 36 else 0)
  else if p = ptA then 25 else 0

/-- A concrete geometry whose checks accept the candidate track and whose
cost-non-increasing single-track bundle adjustment nevertheless raises one
view's reprojection error above the acceptance threshold. -/
def cexGeometry : Geometry where
  angleOk := fun _ _ => true
  triangulate := fun _ => some ptA
  reprojSq := cexReprojSq
  ba := fun obs p =>
    if totalErrorSq cexReprojSq obs ptB ≤ totalErrorSq cexReprojSq obs p
    then ptB else p
  reprojSq_nonneg := by
    intro o p
    unfold cexReprojSq
    split_ifs <;> norm_num
  ba_cost_le := by
    intro obs p
    dsimp only
    split_ifs with h
    · exact h
    · exact le_refl _

/-- C1 counterexample: with default options (per-track bundle adjustment
enabled) a track whose triangulated point passes every hypothesis of the
claim — 2 estimated-view observations, angle test satisfied, reprojection
error within the maximum in every observing view — ends up estimated but
with a stored (bundle-adjusted) point whose reprojection error in one
observing view exceeds the configured maximum. -/
theorem trackEstimator_ba_breaks_reprojection_bound :
    2 ≤ (trackObservations twoViewRecon 0).length ∧
      cexGeometry.angleOk (trackObservations twoViewRecon 0)
        defaultTrackEstimatorOptions.min_triangulation_angle_degrees =
          true ∧
      cexGeometry.triangulate (trackObservations twoViewRecon 0) =
        some ptA ∧
      (∀ o ∈ trackObservations twoViewRecon 0,
        cexGeometry.reprojSq o ptA ≤
          maxReprojSq defaultTrackEstimatorOptions) ∧
      defaultTrackEstimatorOptions.bundle_adjustment = true ∧
      (alookup (estimateAllTracks cexGeometry defaultTrackEstimatorOptions
          twoViewRecon).1.tracks 0).map Track.estimated = some true ∧
      (alookup (estimateAllTracks cexGeometry defaultTrackEstimatorOptions
          twoViewRecon).1.tracks 0).bind Track.point = some ptB ∧
      ∃ o ∈ trackObservations twoViewRecon 0,
        maxReprojSq defaultTrackEstimatorOptions <
          cexGeometry.reprojSq o ptB := by
  with_unfolding_all decide

/-- Options identical to the defaults except that per-track bundle
adjustment is disabled. -/
def noBaOptions : TrackEstimator.Options :=
  { defaultTrackEstimatorOptions with bundle_adjustment := false }

/-- C1 witness: the amended acceptance theorem applied to the concrete
two-view reconstruction with bundle adjustment disabled. -/
theorem trackEstimator_accepts_well_conditioned_track_witness :
    (twoViewRecon.tracks.map Prod.fst).Nodup ∧
      alookup twoViewRecon.tracks 0 =
        some { point := none, estimated := false, viewIds := [1, 2] } ∧
      ({ point := none, estimated := false,
          viewIds := [1, 2] } : Track).estimated = false ∧
      2 ≤ (trackObservations twoViewRecon 0).length ∧
      cexGeometry.angleOk (trackObservations twoViewRecon 0)
        noBaOptions.min_triangulation_angle_degrees = true ∧
      cexGeometry.triangulate (trackObservations twoViewRecon 0) =
        some ptA ∧
      (∀ o ∈ trackObservations twoViewRecon 0,
        cexGeometry.reprojSq o ptA ≤ maxReprojSq noBaOptions) ∧
      (alookup (estimateAllTracks cexGeometry noBaOptions
          twoViewRecon).1.tracks 0).map Track.estimated = some true :=
  ⟨by with_unfolding_all decide, by with_unfolding_all decide, by with_unfolding_all decide, by with_unfolding_all decide, by with_unfolding_all decide, by with_unfolding_all decide,
    by with_unfolding_all decide,
    (trackEstimator_accepts_well_conditioned_track cexGeometry noBaOptions
      twoViewRecon 0
      { point := none, estimated := false, viewIds := [1, 2] } ptA
      (by with_unfolding_all decide) (by with_unfolding_all decide) (by with_unfolding_all decide) (by with_unfolding_all decide) (by with_unfolding_all decide)
      (by with_unfolding_all decide) (by with_unfolding_all decide)).1⟩

/-- C10: a default-constructed `TrackEstimator::Options` has
`num_threads = 1`, `max_acceptable_reprojection_error_pixels = 5.0`,
`min_triangulation_angle_degrees = 3.0`, `bundle_adjustment = true`,
`multithreaded_step_size = 100` and `triangulation_method = MIDPOINT`
(`estimate_track.h` lines 63-87): by default each accepted track is
immediately bundle-adjusted and triangulation uses the midpoint method. -/
theorem trackEstimatorOptions_defaults :
    defaultTrackEstimatorOptions.num_threads = 1 ∧
      defaultTrackEstimatorOptions.max_acceptable_reprojection_error_pixels
        = 5 ∧
      defaultTrackEstimatorOptions.min_triangulation_angle_degrees = 3 ∧
      defaultTrackEstimatorOptions.bundle_adjustment = true ∧
      defaultTrackEstimatorOptions.multithreaded_step_size = 100 ∧
      defaultTrackEstimatorOptions.triangulation_method =
        TriangulationMethodType.MIDPOINT :=
  ⟨rfl, rfl, rfl, rfl, rfl, rfl⟩

/-- Dot product of two 3-vectors. -/
def dot3 (a b : Vec3) : ℚ := a.x * b.x + a.y * b.y + a.z * b.z

/-- Difference of two 3-vectors. -/
def sub3 (a b : Vec3) : Vec3 := ⟨a.x - b.x, a.y - b.y, a.z - b.z⟩

/-- Dehomogenize a homogeneous 3D point. -/
def euclid (p : Pt4) : Vec3 := ⟨p.x / p.w, p.y / p.w, p.z / p.w⟩

/-- Modelled from the spec: `Camera::ProjectPoint` (camera implementation
absent).  Pinhole projection of a homogeneous world point: rotate the
point into the camera frame, divide by depth, scale by the focal length
and shift by the principal point.  Returns the depth together with the
pixel, as the test's `ProjectPoint` does. -/
def projectPoint (c : Camera) (p : Pt4) : ℚ × Feature :=
  let d := sub3 (euclid p) c.position
  let xc := dot3 c.row0 d
  let yc := dot3 c.row1 d
  let zc := dot3 c.row2 d
  (zc, ⟨c.focalLength * (xc / zc) + c.ppx, c.focalLength * (yc / zc) + c.ppy⟩)

/-- Squared pixel distance between two features. -/
def sqDist (a b : Feature) : ℚ := (a.x - b.x) ^ 2 + (a.y - b.y) ^ 2

theorem sqDist_nonneg (a b : Feature) : 0 ≤ sqDist a b :=
  add_nonneg (sq_nonneg _) (sq_nonneg _)

theorem sqDist_self (a : Feature) : sqDist a a = 0 := by
  simp [sqDist]

/-- Squared reprojection residual contributed by one observation
`(track id, feature)` of a view: present exactly when the track exists, is
estimated and has a point (the bundle adjuster's optimized scope). -/
def featureResidualSq (tracks : List (TrackId × Track)) (c : Camera)
    (tf : TrackId × Feature) : Option ℚ :=
  match alookup tracks tf.1 with
  | none => none
  | some t =>
    if t.estimated then
      t.point.map (fun p => sqDist tf.2 (projectPoint c p).2)
    else none

/-- Squared reprojection residuals of all in-scope observations of a view. -/
def viewResidualsSq (r : Reconstruction) (vid : ViewId) : List ℚ :=
  match alookup r.views vid with
  | none => []
  | some v => v.features.filterMap (featureResidualSq r.tracks v.camera)

/-- Squared reprojection residuals of a track's point over its
estimated-view observations. -/
def trackResidualsSq (r : Reconstruction) (tid : TrackId) : List ℚ :=
  match alookup r.tracks tid with
  | none => []
  | some t =>
    match t.point with
    | none => []
    | some p =>
      (trackObservations r tid).map
        (fun o => sqDist o.feature (projectPoint o.camera p).2)

/-- Replace the camera of a view in place. -/
def setViewCamera (r : Reconstruction) (vid : ViewId) (c : Camera) :
    Reconstruction :=
  { r with views := aupdate r.views vid (fun v => { v with camera := c }) }

/-- Replace the point of a track in place (bundle adjustment refines an
existing point; a track without a point is left without one). -/
def setTrackPoint (r : Reconstruction) (tid : TrackId) (p : Pt4) :
    Reconstruction :=
  { r with
      tracks := aupdate r.tracks tid
        (fun t => { t with point := t.point.map (fun _ => p) }) }

/-- Summary returned by a bundle-adjustment call (spec §4.3: success flag,
initial and final cost, iteration count; the elapsed wall-clock time is not
modelled). -/
structure BundleAdjustmentSummary where
  success : Bool
  initial_cost : ℚ
  final_cost : ℚ
  num_iterations : Nat
deriving DecidableEq

/-- Modelled from the spec: the Ceres-based nonlinear solver behind
`bundle_adjustment.cc` (absent from the source tree), abstracted as the
camera/point update it produces.  Spec §4.3: the adjuster minimizes the
total reprojection cost, so the updates never increase the corresponding
sum of squared residuals (`view_cost_le`, `track_cost_le`). -/
structure BAOptimizer where
  optimizeViewCamera : Reconstruction → ViewId → Camera
  optimizeTrackPoint : Reconstruction → TrackId → Pt4
  view_cost_le : ∀ r vid,
    (viewResidualsSq (setViewCamera r vid (optimizeViewCamera r vid))
      vid).sum ≤ (viewResidualsSq r vid).sum
  track_cost_le : ∀ r tid,
    (trackResidualsSq (setTrackPoint r tid (optimizeTrackPoint r tid))
      tid).sum ≤ (trackResidualsSq r tid).sum

/-- Modelled from the spec: `BundleAdjustView` — optimize the view's camera
against its in-scope observations; the returned Summary's costs are half
the sum of squared pixel residuals before and after (spec §4.3). -/
def bundleAdjustView (ba : BAOptimizer) (opts : BundleAdjustmentOptions)
    (vid : ViewId) (r : Reconstruction) :
    Reconstruction × BundleAdjustmentSummary :=
  (setViewCamera r vid (ba.optimizeViewCamera r vid),
    { success := true
      initial_cost := (viewResidualsSq r vid).sum / 2
      final_cost := (viewResidualsSq
        (setViewCamera r vid (ba.optimizeViewCamera r vid)) vid).sum / 2
      num_iterations := opts.max_num_iterations })

/-- Modelled from the spec: `BundleAdjustTrack` — optimize the track's
point against its estimated-view observations. -/
def bundleAdjustTrack (ba : BAOptimizer) (opts : BundleAdjustmentOptions)
    (tid : TrackId) (r : Reconstruction) :
    Reconstruction × BundleAdjustmentSummary :=
  (setTrackPoint r tid (ba.optimizeTrackPoint r tid),
    { success := true
      initial_cost := (trackResidualsSq r tid).sum / 2
      final_cost := (trackResidualsSq
        (setTrackPoint r tid (ba.optimizeTrackPoint r tid)) tid).sum / 2
      num_iterations := opts.max_num_iterations })

/-- The mean squared pixel reprojection error of a residual list, as the
spec's numeric contract words it. -/
def meanSquaredReprojectionError (rs : List ℚ) : ℚ := rs.sum / rs.length

/-- C3: for every successful bundle-adjustment call (view scope or track
scope), `2 * final_cost / num_observations` equals the mean squared pixel
reprojection error over the observations in the optimized scope — i.e.
`final_cost` is half the sum of squared pixel residuals. -/
theorem bundleAdjust_cost_contract (ba : BAOptimizer)
    (opts : BundleAdjustmentOptions) (vid : ViewId) (tid : TrackId)
    (r : Reconstruction)
    (_hv : (bundleAdjustView ba opts vid r).2.success = true)
    (_ht : (bundleAdjustTrack ba opts tid r).2.success = true) :
    2 * (bundleAdjustView ba opts vid r).2.final_cost /
        ((viewResidualsSq (bundleAdjustView ba opts vid r).1 vid).length :
          ℚ) =
      meanSquaredReprojectionError
        (viewResidualsSq (bundleAdjustView ba opts vid r).1 vid) ∧
    2 * (bundleAdjustTrack ba opts tid r).2.final_cost /
        ((trackResidualsSq (bundleAdjustTrack ba opts tid r).1 tid).length :
          ℚ) =
      meanSquaredReprojectionError
        (trackResidualsSq (bundleAdjustTrack ba opts tid r).1 tid) := by
  constructor
  · show 2 * ((viewResidualsSq
          (setViewCamera r vid (ba.optimizeViewCamera r vid)) vid).sum / 2) /
        ((viewResidualsSq
          (setViewCamera r vid (ba.optimizeViewCamera r vid)) vid).length :
            ℚ) =
      meanSquaredReprojectionError (viewResidualsSq
        (setViewCamera r vid (ba.optimizeViewCamera r vid)) vid)
    rw [meanSquaredReprojectionError]
    congr 1
    ring
  · show 2 * ((trackResidualsSq
          (setTrackPoint r tid (ba.optimizeTrackPoint r tid)) tid).sum / 2) /
        ((trackResidualsSq
          (setTrackPoint r tid (ba.optimizeTrackPoint r tid)) tid).length :
            ℚ) =
      meanSquaredReprojectionError (trackResidualsSq
        (setTrackPoint r tid (ba.optimizeTrackPoint r tid)) tid)
    rw [meanSquaredReprojectionError]
    congr 1
    ring

theorem viewResidualsSq_none (r : Reconstruction) (vid : ViewId)
    (h : alookup r.views vid = none) : viewResidualsSq r vid = [] := by
  unfold viewResidualsSq
  rw [h]

theorem viewResidualsSq_some (r : Reconstruction) (vid : ViewId) (v : View)
    (h : alookup r.views vid = some v) :
    viewResidualsSq r vid =
      v.features.filterMap (featureResidualSq r.tracks v.camera) := by
  unfold viewResidualsSq
  rw [h]

theorem trackResidualsSq_no_track (r : Reconstruction) (tid : TrackId)
    (h : alookup r.tracks tid = none) : trackResidualsSq r tid = [] := by
  unfold trackResidualsSq
  rw [h]

theorem trackResidualsSq_no_point (r : Reconstruction) (tid : TrackId)
    (t : Track) (h : alookup r.tracks tid = some t) (hp : t.point = none) :
    trackResidualsSq r tid = [] := by
  unfold trackResidualsSq
  rw [h]
  show (match t.point with
    | none => []
    | some p => (trackObservations r tid).map
        (fun o : Obs => sqDist o.feature (projectPoint o.camera p).2)) = []
  rw [hp]

theorem trackResidualsSq_point (r : Reconstruction) (tid : TrackId)
    (t : Track) (p : Pt4) (h : alookup r.tracks tid = some t)
    (hp : t.point = some p) :
    trackResidualsSq r tid = (trackObservations r tid).map
      (fun o => sqDist o.feature (projectPoint o.camera p).2) := by
  unfold trackResidualsSq
  rw [h]
  show (match t.point with
    | none => []
    | some p => (trackObservations r tid).map
        (fun o : Obs => sqDist o.feature (projectPoint o.camera p).2)) = _
  rw [hp]

/-- Characterization of a present residual: it is the squared distance
between the measured feature and the projection of the estimated track's
point. -/
theorem featureResidualSq_eq_some (tracks : List (TrackId × Track))
    (c : Camera) (tf : TrackId × Feature) (q : ℚ)
    (h : featureResidualSq tracks c tf = some q) :
    ∃ t p, alookup tracks tf.1 = some t ∧ t.estimated = true ∧
      t.point = some p ∧ q = sqDist tf.2 (projectPoint c p).2 := by
  unfold featureResidualSq at h
  split at h
  · exact absurd h (by simp)
  next t hlk =>
    split at h
    next hest =>
      cases hpt : t.point with
      | none => rw [hpt] at h; simp at h
      | some p =>
        rw [hpt] at h
        simp only [Option.map_some', Option.some.injEq] at h
        exact ⟨t, p, hlk, hest, hpt, h.symm⟩
    next hest => simp at h

/-- Every element of a view's residual list is a nonnegative squared
distance. -/
theorem viewResidualsSq_mem_nonneg (r : Reconstruction) (vid : ViewId)
    (q : ℚ) (h : q ∈ viewResidualsSq r vid) : 0 ≤ q := by
  cases hv : alookup r.views vid with
  | none => rw [viewResidualsSq_none r vid hv] at h; simp at h
  | some v =>
    rw [viewResidualsSq_some r vid v hv] at h
    obtain ⟨tf, _, heq⟩ := List.mem_filterMap.mp h
    obtain ⟨t, p, _, _, _, hq⟩ :=
      featureResidualSq_eq_some r.tracks v.camera tf q heq
    rw [hq]
    exact sqDist_nonneg _ _

/-- The camera currently stored for the view (used by the identity
optimizer). -/
def currentCameraOf (r : Reconstruction) (vid : ViewId) : Camera :=
  match alookup r.views vid with
  | some v => v.camera
  | none => testCamera

/-- The point currently stored for the track (used by the identity
optimizer). -/
def currentPointOf (r : Reconstruction) (tid : TrackId) : Pt4 :=
  match alookup r.tracks tid with
  | some t =>
    match t.point with
    | some p => p
    | none => ptA
  | none => ptA

theorem viewResidualsSq_set_current (r : Reconstruction) (vid : ViewId) :
    viewResidualsSq (setViewCamera r vid (currentCameraOf r vid)) vid =
      viewResidualsSq r vid := by
  cases h : alookup r.views vid with
  | none =>
    have hl : alookup (setViewCamera r vid (currentCameraOf r vid)).views
        vid = none := by
      show alookup (aupdate r.views vid _) vid = none
      rw [alookup_aupdate_self, h]
      rfl
    rw [viewResidualsSq_none _ vid hl, viewResidualsSq_none r vid h]
  | some v =>
    have hc : currentCameraOf r vid = v.camera := by
      unfold currentCameraOf
      rw [h]
    have hl : alookup (setViewCamera r vid (currentCameraOf r vid)).views
        vid = some { v with camera := currentCameraOf r vid } := by
      show alookup (aupdate r.views vid _) vid = _
      rw [alookup_aupdate_self, h]
      rfl
    rw [hc] at hl
    rw [hc, viewResidualsSq_some _ vid _ hl, viewResidualsSq_some r vid v h]
    rfl

theorem trackResidualsSq_set_current (r : Reconstruction) (tid : TrackId) :
    trackResidualsSq (setTrackPoint r tid (currentPointOf r tid)) tid =
      trackResidualsSq r tid := by
  cases h : alookup r.tracks tid with
  | none =>
    have hl : alookup (setTrackPoint r tid (currentPointOf r tid)).tracks
        tid = none := by
      show alookup (aupdate r.tracks tid _) tid = none
      rw [alookup_aupdate_self, h]
      rfl
    rw [trackResidualsSq_no_track _ tid hl, trackResidualsSq_no_track r tid h]
  | some t =>
    have hl : alookup (setTrackPoint r tid (currentPointOf r tid)).tracks
        tid = some { t with
          point := t.point.map (fun _ => currentPointOf r tid) } := by
      show alookup (aupdate r.tracks tid _) tid = _
      rw [alookup_aupdate_self, h]
      rfl
    have hobs : trackObservations
        (setTrackPoint r tid (currentPointOf r tid)) tid =
          trackObservations r tid :=
      trackObservations_aupdate r tid
        (fun t => { t with
          point := t.point.map (fun _ => currentPointOf r tid) })
        (fun t => rfl) tid
    cases hp : t.point with
    | none =>
      rw [hp] at hl
      rw [trackResidualsSq_no_point _ tid _ hl rfl,
        trackResidualsSq_no_point r tid t h hp]
    | some p =>
      have hc : currentPointOf r tid = p := by
        unfold currentPointOf
        rw [h]
        show (match t.point with
          | some p => p
          | none => ptA) = p
        rw [hp]
      rw [hp, hc] at hl
      simp only [Option.map_some'] at hl
      rw [hc] at hobs ⊢
      rw [trackResidualsSq_point _ tid _ p hl rfl,
        trackResidualsSq_point r tid t p h hp, hobs]

/-- The trivial bundle-adjustment optimizer: it returns the stored camera
and point unchanged, so the cost is exactly preserved. -/
def idOptimizer : BAOptimizer where
  optimizeViewCamera := currentCameraOf
  optimizeTrackPoint := currentPointOf
  view_cost_le := fun r vid => le_of_eq
    (by rw [viewResidualsSq_set_current])
  track_cost_le := fun r tid => le_of_eq
    (by rw [trackResidualsSq_set_current])

/-- The estimated view of the exact-projection reconstruction: its single
observation (600, 700) is the exact projection of the point (1,2,5,1)
through `testCamera`. -/
def exactView : View where
  name := "0"
  timestamp := 0
  camera := testCamera
  estimated := true
  features := [(0, ⟨600, 700⟩)]

/-- A one-view reconstruction whose single observation is the exact
projection of the estimated track's point (`projectPoint testCamera
⟨1,2,5,1⟩ = (600, 700)`). -/
def exactRecon : Reconstruction where
  views := [(5, exactView)]
  tracks :=
    [(0, { point := some ⟨1, 2, 5, 1⟩, estimated := true,
           viewIds := [5] })]
  nextViewId := 6
  nextTrackId := 1

/-- C3 witness: the cost contract applied to a successful concrete
bundle-adjustment call with the identity optimizer. -/
theorem bundleAdjust_cost_contract_witness :
    (bundleAdjustView idOptimizer {} 5 exactRecon).2.success = true ∧
      (bundleAdjustTrack idOptimizer {} 0 exactRecon).2.success = true ∧
      (2 * (bundleAdjustView idOptimizer {} 5 exactRecon).2.final_cost /
          ((viewResidualsSq (bundleAdjustView idOptimizer {} 5
            exactRecon).1 5).length : ℚ) =
        meanSquaredReprojectionError
          (viewResidualsSq (bundleAdjustView idOptimizer {} 5
            exactRecon).1 5) ∧
      2 * (bundleAdjustTrack idOptimizer {} 0 exactRecon).2.final_cost /
          ((trackResidualsSq (bundleAdjustTrack idOptimizer {} 0
            exactRecon).1 0).length : ℚ) =
        meanSquaredReprojectionError
          (trackResidualsSq (bundleAdjustTrack idOptimizer {} 0
            exactRecon).1 0)) :=
  ⟨rfl, rfl,
    bundleAdjust_cost_contract idOptimizer {} 5 0 exactRecon rfl rfl⟩

/-- C4: for a reconstruction whose view's observations are exact
projections of the observed (estimated) tracks' points — the test's
one-camera, 100-point, zero-pixel-noise scenario — `BundleAdjustView`
returns a Summary with `2 * final_cost / num_observations < 1e-15`: the
initial cost is exactly zero and the cost-minimizing optimizer keeps it
zero. -/
theorem bundleAdjustView_zero_noise (ba : BAOptimizer)
    (opts : BundleAdjustmentOptions) (vid : ViewId) (r : Reconstruction)
    (v : View) (hv : alookup r.views vid = some v)
    (hexact : ∀ tf ∈ v.features, ∀ t, alookup r.tracks tf.1 = some t →
      t.estimated = true → ∀ p, t.point = some p →
        tf.2 = (projectPoint v.camera p).2) :
    2 * (bundleAdjustView ba opts vid r).2.final_cost /
        ((viewResidualsSq (bundleAdjustView ba opts vid r).1 vid).length :
          ℚ) < 1 / 10 ^ 15 := by
  have hzero : ∀ q ∈ viewResidualsSq r vid, q = 0 := by
    intro q hq
    rw [viewResidualsSq_some r vid v hv] at hq
    obtain ⟨tf, htf, heq⟩ := List.mem_filterMap.mp hq
    obtain ⟨t, p, hlk, hest, hpt, hqe⟩ :=
      featureResidualSq_eq_some r.tracks v.camera tf q heq
    rw [hqe, hexact tf htf t hlk hest p hpt, sqDist_self]
  have hsum0 : (viewResidualsSq r vid).sum = 0 := List.sum_eq_zero hzero
  have hfin_nonneg : 0 ≤ (viewResidualsSq
      (setViewCamera r vid (ba.optimizeViewCamera r vid)) vid).sum :=
    List.sum_nonneg (fun q hq => viewResidualsSq_mem_nonneg _ vid q hq)
  have hfin_le := ba.view_cost_le r vid
  rw [hsum0] at hfin_le
  have hfin0 : (viewResidualsSq
      (setViewCamera r vid (ba.optimizeViewCamera r vid)) vid).sum = 0 :=
    le_antisymm hfin_le hfin_nonneg
  show 2 * ((viewResidualsSq
      (setViewCamera r vid (ba.optimizeViewCamera r vid)) vid).sum / 2) /
    ((viewResidualsSq
      (setViewCamera r vid (ba.optimizeViewCamera r vid)) vid).length :
        ℚ) < 1 / 10 ^ 15
  rw [hfin0]
  norm_num

set_option maxRecDepth 8000 in
/-- C4 witness: the zero-noise theorem applied to the concrete exact
reconstruction with the identity optimizer. -/
theorem bundleAdjustView_zero_noise_witness :
    alookup exactRecon.views 5 = some exactView ∧
      (∀ tf ∈ exactView.features,
        ∀ t, alookup exactRecon.tracks tf.1 = some t →
          t.estimated = true → ∀ p, t.point = some p →
            tf.2 = (projectPoint exactView.camera p).2) ∧
      2 * (bundleAdjustView idOptimizer {} 5 exactRecon).2.final_cost /
          ((viewResidualsSq (bundleAdjustView idOptimizer {} 5
            exactRecon).1 5).length : ℚ) < 1 / 10 ^ 15 :=
  ⟨by with_unfolding_all decide, by with_unfolding_all decide,
    bundleAdjustView_zero_noise idOptimizer {} 5 exactRecon exactView
      (by with_unfolding_all decide) (by with_unfolding_all decide)⟩

/-- Modelled from the spec: the `Estimator` interface of the
sample-consensus framework (spec §4.1; `estimator.h` is not in the source
tree).  `sampleSize` is the minimal sample size, `estimateModel` may
return several hypotheses (multi-root solvers), `error` is the scalar
residual of a datum against a model. -/
structure EstimatorIface (α β : Type) where
  sampleSize : Nat
  estimateModel : List α → List β
  error : α → β → ℚ

/-- Modelled from the spec: configuration of the sample-consensus loop
(error threshold for inliers, iteration budget, sampler thread count,
caller-supplied minimum inlier count). -/
structure RansacParams where
  error_thresh : ℚ
  max_iterations : Nat
  num_threads : Nat
  min_inlier_count : Nat
deriving DecidableEq

/-- Result of `SampleConsensusEstimator::Estimate`: best model, inlier
mask, iteration count. -/
structure RansacResult (β : Type) where
  model : β
  inliers : List Bool
  num_iterations : Nat

/-- Modelled from the spec: a linear congruential pseudo-random generator
standing in for `RandomNumberGenerator` (implementation absent). -/
def lcg (s : Nat) : Nat := (1103515245 * s + 12345) % 2 ^ 31

/-- Draw `k` data indices below `n` from the generator state, returning the
advanced state. -/
def drawIndices (s : Nat) : Nat → Nat → Nat × List Nat
  | 0, _ => (s, [])
  | k + 1, n =>
    let s' := lcg s
    let (s'', rest) := drawIndices s' k n
    (s'', (if n = 0 then 0 else s' % n) :: rest)

/-- Inlier count of a model (spec §4.1: inlier-count quality measure). -/
def scoreModel {α β : Type} (E : EstimatorIface α β) (params : RansacParams)
    (data : List α) (m : β) : Nat :=
  (data.filter (fun d => decide (E.error d m ≤ params.error_thresh))).length

/-- Keep the better of the current best and a candidate (strictly more
inliers wins; the earlier candidate wins ties). -/
def keepBest {β : Type} (b : Option (β × Nat)) (c : β × Nat) :
    Option (β × Nat) :=
  match b with
  | none => some c
  | some (bm, bc) => if bc < c.2 then some c else some (bm, bc)

/-- One worker of the hypothesize-and-test loop: run the given number of
iterations from the given seed, each drawing a minimal sample, estimating
all hypotheses and scoring them; return the best (model, inlier count). -/
def runIters {α β : Type} (E : EstimatorIface α β) (params : RansacParams)
    (data : List α) : Nat → Nat → Option (β × Nat) → Option (β × Nat)
  | 0, _, best => best
  | i + 1, s, best =>
    let (s', idxs) := drawIndices s E.sampleSize data.length
    let sample := idxs.filterMap (fun j => data[j]?)
    let hyps := E.estimateModel sample
    let best' := hyps.foldl
      (fun b m => keepBest b (m, scoreModel E params data m)) best
    runIters E params data i s' best'

/-- Modelled from the spec: `SampleConsensusEstimator::Estimate`
(implementation absent).  Workers are seeded per-worker (`seed + w`); each
worker runs the iteration budget over its seed; the per-worker bests are
merged in the order given by `schedule` (a permutation of the worker
indices — the nondeterministic completion order of the sampler threads).
Fails if the input is smaller than the minimal sample size or the best
hypothesis has fewer than the caller-supplied minimum inlier count. -/
def scEstimate {α β : Type} (E : EstimatorIface α β) (params : RansacParams)
    (seed : Nat) (data : List α) (schedule : List Nat) :
    Option (RansacResult β) :=
  if data.length < E.sampleSize then none
  else
    let best := schedule.foldl
      (fun b w => match runIters E params data params.max_iterations
          (seed + w) none with
        | none => b
        | some c => keepBest b c) none
    match best with
    | none => none
    | some (m, c) =>
      if c < params.min_inlier_count then none
      else some
        { model := m
          inliers := data.map
            (fun d => decide (E.error d m ≤ params.error_thresh))
          num_iterations := params.max_iterations * schedule.length }

theorem list_range_one : List.range 1 = [0] := by decide

/-- C9: `SampleConsensusEstimator::Estimate` is deterministic under
single-threaded sampling — for a fixed seed and `num_threads = 1`, any two
runs (any two completion orders of the single worker) return the same best
model, the same inlier mask and the same iteration count. -/
theorem scEstimate_deterministic {α β : Type} (E : EstimatorIface α β)
    (params : RansacParams) (seed : Nat) (data : List α)
    (s₁ s₂ : List Nat) (h1 : params.num_threads = 1)
    (hp1 : List.Perm s₁ (List.range params.num_threads))
    (hp2 : List.Perm s₂ (List.range params.num_threads)) :
    scEstimate E params seed data s₁ = scEstimate E params seed data s₂ := by
  rw [h1, list_range_one] at hp1 hp2
  rw [List.perm_singleton.mp hp1, List.perm_singleton.mp hp2]

/-- A tiny concrete estimator over rational data: one-point samples, the
sample itself as the single hypothesis, absolute-difference residuals. -/
def sampleEstimator : EstimatorIface ℚ ℚ where
  sampleSize := 1
  estimateModel := fun l => l
  error := fun d m => (d - m) ^ 2

/-- Concrete single-threaded parameters for the determinism witness. -/
def sampleParams : RansacParams where
  error_thresh := 1
  max_iterations := 2
  num_threads := 1
  min_inlier_count := 0

/-- C9 witness: determinism applied at a concrete estimator, data set and
seed, with the (unique) single-worker schedule given twice. -/
theorem scEstimate_deterministic_witness :
    sampleParams.num_threads = 1 ∧
      List.Perm [0] (List.range sampleParams.num_threads) ∧
      scEstimate sampleEstimator sampleParams 7 [0, 1, 5] [0] =
        scEstimate sampleEstimator sampleParams 7 [0, 1, 5] [0] :=
  ⟨rfl, by rw [show sampleParams.num_threads = 1 from rfl, list_range_one],
    scEstimate_deterministic sampleEstimator sampleParams 7 [0, 1, 5]
      [0] [0] rfl
      (by rw [show sampleParams.num_threads = 1 from rfl, list_range_one])
      (by rw [show sampleParams.num_threads = 1 from rfl, list_range_one])⟩

/-- The empty reconstruction. -/
def emptyReconstruction : Reconstruction :=
  { views := [], tracks := [], nextViewId := 0, nextTrackId := 0 }

/-- The view ids present in a reconstruction. -/
def viewKeys (r : Reconstruction) : List ViewId := r.views.map Prod.fst

/-- The track ids present in a reconstruction. -/
def trackKeys (r : Reconstruction) : List TrackId := r.tracks.map Prod.fst

/-- Modelled from the spec (§3, §6): the operations that mutate a
reconstruction — the explicit add operations of the mutation API, the
track-estimator calls, the bundle-adjustment calls, and outlier rejection
(which per the spec clears the estimated flag instead of deleting). -/
inductive SfmOp where
  | addView (name : String) (ts : ℚ) (cam : Camera)
  | addTrack
  | addObservation (vid : ViewId) (tid : TrackId) (f : Feature)
  | estimateTracksOp (geo : Geometry) (opt : TrackEstimator.Options)
      (ids : List TrackId)
  | estimateAllTracksOp (geo : Geometry) (opt : TrackEstimator.Options)
  | bundleAdjustViewOp (ba : BAOptimizer) (opts : BundleAdjustmentOptions)
      (vid : ViewId)
  | bundleAdjustTrackOp (ba : BAOptimizer) (opts : BundleAdjustmentOptions)
      (tid : TrackId)
  | rejectTrackOp (tid : TrackId)

/-- Apply one operation to the reconstruction.  `addView`/`addTrack`
assign the monotone next id; `addObservation` links an existing view and
an existing track (and is a no-op otherwise); the estimator and bundle
adjuster mutate entries in place; `rejectTrackOp` clears the estimated
flag. -/
def applyOp (op : SfmOp) (r : Reconstruction) : Reconstruction :=
  match op with
  | .addView name ts cam =>
    { r with
        views := r.views ++ [(r.nextViewId,
          { name := name, timestamp := ts, camera := cam,
            estimated := false, features := [] })]
        nextViewId := r.nextViewId + 1 }
  | .addTrack =>
    { r with
        tracks := r.tracks ++ [(r.nextTrackId,
          { point := none, estimated := false, viewIds := [] })]
        nextTrackId := r.nextTrackId + 1 }
  | .addObservation vid tid f =>
    match alookup r.views vid, alookup r.tracks tid with
    | some _, some _ =>
      { r with
          views := aupdate r.views vid
            (fun v => { v with features := v.features ++ [(tid, f)] })
          tracks := aupdate r.tracks tid
            (fun t => { t with viewIds := t.viewIds ++ [vid] }) }
    | _, _ => r
  | .estimateTracksOp geo opt ids => (estimateTracks geo opt r ids).1
  | .estimateAllTracksOp geo opt => (estimateAllTracks geo opt r).1
  | .bundleAdjustViewOp ba opts vid => (bundleAdjustView ba opts vid r).1
  | .bundleAdjustTrackOp ba opts tid => (bundleAdjustTrack ba opts tid r).1
  | .rejectTrackOp tid =>
    { r with
        tracks := aupdate r.tracks tid
          (fun t => { t with estimated := false }) }

/-- Apply a sequence of operations in order. -/
def applyOps (ops : List SfmOp) (r : Reconstruction) : Reconstruction :=
  ops.foldl (fun s op => applyOp op s) r

/-- Well-formedness of the reconstruction: view and track ids are unique,
and every present id is below the corresponding monotone next id (so a
fresh id can never collide with one already assigned). -/
def wf (r : Reconstruction) : Prop :=
  (viewKeys r).Nodup ∧ (trackKeys r).Nodup ∧
    (∀ k ∈ viewKeys r, k < r.nextViewId) ∧
    (∀ k ∈ trackKeys r, k < r.nextTrackId)

theorem applyOp_shape (op : SfmOp) (r : Reconstruction) :
    (viewKeys (applyOp op r) = viewKeys r ∧
        trackKeys (applyOp op r) = trackKeys r ∧
        (applyOp op r).nextViewId = r.nextViewId ∧
        (applyOp op r).nextTrackId = r.nextTrackId) ∨
      (viewKeys (applyOp op r) = viewKeys r ++ [r.nextViewId] ∧
        trackKeys (applyOp op r) = trackKeys r ∧
        (applyOp op r).nextViewId = r.nextViewId + 1 ∧
        (applyOp op r).nextTrackId = r.nextTrackId) ∨
      (viewKeys (applyOp op r) = viewKeys r ∧
        trackKeys (applyOp op r) = trackKeys r ++ [r.nextTrackId] ∧
        (applyOp op r).nextViewId = r.nextViewId ∧
        (applyOp op r).nextTrackId = r.nextTrackId + 1) := by
  cases op with
  | addView name ts cam =>
    refine Or.inr (Or.inl ⟨?_, rfl, rfl, rfl⟩)
    simp [applyOp, viewKeys]
  | addTrack =>
    refine Or.inr (Or.inr ⟨rfl, ?_, rfl, rfl⟩)
    simp [applyOp, trackKeys]
  | addObservation vid tid f =>
    refine Or.inl ?_
    cases hv : alookup r.views vid with
    | none => simp [applyOp, hv]
    | some v =>
      cases ht : alookup r.tracks tid with
      | none => simp [applyOp, hv, ht]
      | some t =>
        simp [applyOp, hv, ht, viewKeys, trackKeys, keys_aupdate]
  | estimateTracksOp geo opt ids =>
    refine Or.inl ⟨?_, ?_, ?_, ?_⟩
    · show (estimateTracks geo opt r ids).1.views.map Prod.fst = _
      unfold estimateTracks
      rw [fold_views_inv]
      rfl
    · show (estimateTracks geo opt r ids).1.tracks.map Prod.fst = _
      unfold estimateTracks
      rw [fold_trackKeys_inv]
      rfl
    · show (estimateTracks geo opt r ids).1.nextViewId = _
      unfold estimateTracks
      exact (fold_nextIds_inv geo opt _ _).1
    · show (estimateTracks geo opt r ids).1.nextTrackId = _
      unfold estimateTracks
      exact (fold_nextIds_inv geo opt _ _).2
  | estimateAllTracksOp geo opt =>
    refine Or.inl ⟨?_, ?_, ?_, ?_⟩
    · show (estimateTracks geo opt r _).1.views.map Prod.fst = _
      unfold estimateTracks
      rw [fold_views_inv]
      rfl
    · show (estimateTracks geo opt r _).1.tracks.map Prod.fst = _
      unfold estimateTracks
      rw [fold_trackKeys_inv]
      rfl
    · show (estimateTracks geo opt r _).1.nextViewId = _
      unfold estimateTracks
      exact (fold_nextIds_inv geo opt _ _).1
    · show (estimateTracks geo opt r _).1.nextTrackId = _
      unfold estimateTracks
      exact (fold_nextIds_inv geo opt _ _).2
  | bundleAdjustViewOp ba opts vid =>
    exact Or.inl ⟨keys_aupdate _ _ _, rfl, rfl, rfl⟩
  | bundleAdjustTrackOp ba opts tid =>
    exact Or.inl ⟨rfl, keys_aupdate _ _ _, rfl, rfl⟩
  | rejectTrackOp tid =>
    exact Or.inl ⟨rfl, keys_aupdate _ _ _, rfl, rfl⟩

theorem wf_applyOp (op : SfmOp) (r : Reconstruction) (h : wf r) :
    wf (applyOp op r) := by
  obtain ⟨hnv, hnt, hbv, hbt⟩ := h
  rcases applyOp_shape op r with ⟨e1, e2, e3, e4⟩ | ⟨e1, e2, e3, e4⟩ |
    ⟨e1, e2, e3, e4⟩
  · exact ⟨e1 ▸ hnv, e2 ▸ hnt,
      fun k hk => by rw [e3]; exact hbv k (e1 ▸ hk),
      fun k hk => by rw [e4]; exact hbt k (e2 ▸ hk)⟩
  · refine ⟨?_, e2 ▸ hnt, ?_, fun k hk => by rw [e4]; exact hbt k (e2 ▸ hk)⟩
    · rw [e1]
      refine List.Nodup.append hnv (List.nodup_singleton _) ?_
      intro a ha hb
      rw [List.mem_singleton] at hb
      rw [hb] at ha
      exact absurd (hbv _ ha) (lt_irrefl _)
    · intro k hk
      rw [e3]
      rw [e1, List.mem_append, List.mem_singleton] at hk
      rcases hk with hk | hk
      · exact Nat.lt_succ_of_lt (hbv k hk)
      · subst hk
        exact Nat.lt_succ_self _
  · refine ⟨e1 ▸ hnv, ?_, fun k hk => by rw [e3]; exact hbv k (e1 ▸ hk), ?_⟩
    · rw [e2]
      refine List.Nodup.append hnt (List.nodup_singleton _) ?_
      intro a ha hb
      rw [List.mem_singleton] at hb
      rw [hb] at ha
      exact absurd (hbt _ ha) (lt_irrefl _)
    · intro k hk
      rw [e4]
      rw [e2, List.mem_append, List.mem_singleton] at hk
      rcases hk with hk | hk
      · exact Nat.lt_succ_of_lt (hbt k hk)
      · subst hk
        exact Nat.lt_succ_self _

theorem wf_empty : wf emptyReconstruction := by
  refine ⟨List.nodup_nil, List.nodup_nil, ?_, ?_⟩ <;> intro k hk <;>
    simp [viewKeys, trackKeys, emptyReconstruction] at hk

theorem wf_applyOps (ops : List SfmOp) (r : Reconstruction) (h : wf r) :
    wf (applyOps ops r) := by
  induction ops generalizing r with
  | nil => exact h
  | cons op ops ih => exact ih (applyOp op r) (wf_applyOp op r h)

theorem viewKeys_sublist_applyOp (op : SfmOp) (r : Reconstruction) :
    List.Sublist (viewKeys r) (viewKeys (applyOp op r)) ∧
      List.Sublist (trackKeys r) (trackKeys (applyOp op r)) := by
  rcases applyOp_shape op r with ⟨e1, e2, _, _⟩ | ⟨e1, e2, _, _⟩ |
    ⟨e1, e2, _, _⟩
  · exact ⟨e1 ▸ List.Sublist.refl _, e2 ▸ List.Sublist.refl _⟩
  · exact ⟨e1 ▸ List.sublist_append_left _ _, e2 ▸ List.Sublist.refl _⟩
  · exact ⟨e1 ▸ List.Sublist.refl _, e2 ▸ List.sublist_append_left _ _⟩

theorem fresh_viewKey_applyOp (op : SfmOp) (r : Reconstruction) (k : Nat)
    (hk : k ∈ viewKeys (applyOp op r)) (hnk : k ∉ viewKeys r) :
    k = r.nextViewId := by
  rcases applyOp_shape op r with ⟨e1, _, _, _⟩ | ⟨e1, _, _, _⟩ |
    ⟨e1, _, _, _⟩
  · exact absurd (e1 ▸ hk) hnk
  · rw [e1, List.mem_append, List.mem_singleton] at hk
    rcases hk with hk | hk
    · exact absurd hk hnk
    · exact hk
  · exact absurd (e1 ▸ hk) hnk

theorem fresh_trackKey_applyOp (op : SfmOp) (r : Reconstruction) (k : Nat)
    (hk : k ∈ trackKeys (applyOp op r)) (hnk : k ∉ trackKeys r) :
    k = r.nextTrackId := by
  rcases applyOp_shape op r with ⟨_, e2, _, _⟩ | ⟨_, e2, _, _⟩ |
    ⟨_, e2, _, _⟩
  · exact absurd (e2 ▸ hk) hnk
  · exact absurd (e2 ▸ hk) hnk
  · rw [e2, List.mem_append, List.mem_singleton] at hk
    rcases hk with hk | hk
    · exact absurd hk hnk
    · exact hk

/-- C8: starting from the empty reconstruction, any sequence of add
operations, track-estimator calls, bundle-adjustment calls and track
rejections keeps the reconstruction well-formed (view/track ids unique and
below the monotone next-id counters, so an id is never reused); no further
operation ever deletes a view or a track (the id lists only grow, as
sublists); any id a further operation introduces is exactly the fresh
next id; and rejecting a track only clears its estimated flag — the track
stays present, its other fields and all other tracks unchanged. -/
theorem reconstruction_invariants (ops : List SfmOp) :
    wf (applyOps ops emptyReconstruction) ∧
      (∀ op : SfmOp,
        List.Sublist (viewKeys (applyOps ops emptyReconstruction))
          (viewKeys (applyOp op (applyOps ops emptyReconstruction))) ∧
        List.Sublist (trackKeys (applyOps ops emptyReconstruction))
          (trackKeys (applyOp op (applyOps ops emptyReconstruction)))) ∧
      (∀ (op : SfmOp) (k : Nat),
        k ∈ viewKeys (applyOp op (applyOps ops emptyReconstruction)) →
        k ∉ viewKeys (applyOps ops emptyReconstruction) →
        k = (applyOps ops emptyReconstruction).nextViewId) ∧
      (∀ (op : SfmOp) (k : Nat),
        k ∈ trackKeys (applyOp op (applyOps ops emptyReconstruction)) →
        k ∉ trackKeys (applyOps ops emptyReconstruction) →
        k = (applyOps ops emptyReconstruction).nextTrackId) ∧
      (∀ tid : TrackId,
        alookup (applyOp (SfmOp.rejectTrackOp tid)
            (applyOps ops emptyReconstruction)).tracks tid =
          (alookup (applyOps ops emptyReconstruction).tracks tid).map
            (fun t => { t with estimated := false }) ∧
        (∀ t', t' ≠ tid →
          alookup (applyOp (SfmOp.rejectTrackOp tid)
              (applyOps ops emptyReconstruction)).tracks t' =
            alookup (applyOps ops emptyReconstruction).tracks t') ∧
        trackKeys (applyOp (SfmOp.rejectTrackOp tid)
            (applyOps ops emptyReconstruction)) =
          trackKeys (applyOps ops emptyReconstruction)) := by
  refine ⟨wf_applyOps ops emptyReconstruction wf_empty,
    fun op => viewKeys_sublist_applyOp op _,
    fun op k hk hnk => fresh_viewKey_applyOp op _ k hk hnk,
    fun op k hk hnk => fresh_trackKey_applyOp op _ k hk hnk,
    fun tid => ⟨?_, ?_, ?_⟩⟩
  · exact alookup_aupdate_self _ _ _
  · intro t' hne
    exact alookup_aupdate_ne _ _ _ _ hne
  · exact keys_aupdate _ _ _
